import Mathlib

/-!
Verification development for the "Stack Overflow Answer Validator"
(`src/stack_overflow_validator.py`).

The Python source is shallowly embedded below.  Strings are modelled by
Lean `String` (in this toolchain a structure holding a `List Char`), and
the regular expressions of the source are modelled by explicit,
executable scanners over `List Char` that mirror Python `re` semantics
(leftmost scanning, greedy/lazy quantifier behaviour, `\b` word
boundaries, `\w` word characters restricted to their ASCII fragment,
which covers every input considered here):

  * `re.findall(r'```(?:python)?\n(.*?)```', text, re.DOTALL)` is
    `findAll` / `extract_code_blocks`;
  * `re.search` of the four literal patterns of `deprecated_patterns`
    is `occursIn`; the fifth pattern `print \w+` is `hasPrintStmt`;
  * `re.findall(r'\b\d{3,}\b', code)` is `magicScan`;
  * the URL patterns of lines 63 and 65 of the source are
    `hasQuestionShape` and `findQid`.

The system clock read `datetime.now().year` is injected as an explicit
`year : Int` parameter, as the design notes of the specification demand
for testability; apart from it the source reads no other state.
-/

/-- ASCII fragment of Python regex `\w` (word character). -/
def isWordChar (c : Char) : Bool := c.isAlphanum || c == '_'

/-- Semantics of `re.search` for a literal pattern `pat`: does `pat`
occur as a contiguous substring of `cs`? -/
def occursIn (pat : List Char) : List Char → Bool
  | [] => pat.isEmpty
  | c :: cs' => pat.isPrefixOf (c :: cs') || occursIn pat cs'

/-- Numeric value of a digit string, as Python `int` on a decimal
literal (leading zeroes allowed). -/
def digitsToNat (ds : List Char) : Nat :=
  ds.foldl (fun n c => n * 10 + (c.toNat - '0'.toNat)) 0

/-! ## Block extraction (source lines 13-15)

`extract_code_blocks` is
`re.findall(r'```(?:python)?\n(.*?)```', text, re.DOTALL)`.
-/

/-- The triple-backtick fence. -/
def fence : List Char := "```".data

/-- The optional language-tag part of the opening fence together with
the mandatory newline: the regex fragment `(?:python)?\n` in its
successful greedy branch reads exactly `python` then `\n`. -/
def pythonNl : List Char := "python\n".data

/-- Lazy matching of `(.*?)```` against `cs` (under `re.DOTALL`): split
`cs` at the first occurrence of the closing fence, returning the
content before it and the remainder after it.  `none` when no closing
fence exists (an unterminated opening fence matches nothing). -/
def splitAtFence : List Char → Option (List Char × List Char)
  | [] => none
  | c :: cs' =>
    if fence.isPrefixOf (c :: cs') then some ([], (c :: cs').drop 3)
    else (splitAtFence cs').map (fun p => (c :: p.1, p.2))

/-- One anchored attempt of the whole pattern at the start of `cs`:
the opening fence, then the greedy optional `python` tag (tried first,
falling back to the tagless branch exactly as the backtracking engine
does), then the mandatory newline, then the lazy capture up to the
first closing fence.  Returns the captured group and the remainder of
the text after the match. -/
def matchFrom (cs : List Char) : Option (List Char × List Char) :=
  if fence.isPrefixOf cs then
    match (if pythonNl.isPrefixOf (cs.drop 3) then splitAtFence (cs.drop 10) else none) with
    | some p => some p
    | none =>
      match cs.drop 3 with
      | '\n' :: body => splitAtFence body
      | _ => none
  else none

/-- Scanning loop of `re.findall`: try the anchored match at each
position from left to right; on success emit the captured group and
resume at the end of the match, otherwise advance one character.  The
`fuel` argument only forces structural termination: every step consumes
at least one character and one unit of fuel, so starting `fuel` at the
length of the text (`findAll` below) never exhausts it — this is
`findAllAux_irrel` together with `matchFrom_rest_lt`. -/
def findAllAux : Nat → List Char → List (List Char)
  | 0, _ => []
  | _ + 1, [] => []
  | fuel + 1, c :: cs' =>
    match matchFrom (c :: cs') with
    | some (content, rest) => content :: findAllAux fuel rest
    | none => findAllAux fuel cs'

/-- All captured groups of the fence regex over `cs`, leftmost first. -/
def findAll (cs : List Char) : List (List Char) :=
  findAllAux cs.length cs

/-- Source `extract_code_blocks` (lines 13-15). -/
def extract_code_blocks (text : String) : List String :=
  (findAll text.data).map String.mk

/-! ## Deprecation scanner (source lines 18-32) -/

/-- Does the pattern `print \w+` match anchored at the start of `cs`:
the literal `print ` followed by at least one word character? -/
def printAt (cs : List Char) : Bool :=
  "print ".data.isPrefixOf cs &&
    (match cs.drop 6 with
     | c :: _ => isWordChar c
     | [] => false)

/-- Semantics of `re.search(r'print \w+', code)`: the anchored match
succeeds at some position. -/
def hasPrintStmt : List Char → Bool
  | [] => false
  | c :: cs' => printAt (c :: cs') || hasPrintStmt cs'

/-- A detection pattern of the rule table: four of the source's regexes
are literal substring patterns, the fifth is `print \w+`. -/
inductive Pat where
  | literal (pat : String)
  | printWord
deriving DecidableEq

/-- Evaluation of `re.search(pattern, code)` for a table pattern. -/
def patMatches : Pat → List Char → Bool
  | .literal p, cs => occursIn p.data cs
  | .printWord, cs => hasPrintStmt cs

/-- Source `deprecated_patterns` (lines 20-26), in table order. -/
def deprecated_patterns : List (Pat × String) :=
  [(.literal "from tkinter import ttk", "ttk is still fine, but are YOU?"),
   (.literal "import urllib2", "Python 2 called, it wants its imports back"),
   (.literal "from StringIO import", "This import is so old it has a pension"),
   (.literal "import md5", "MD5? More like M-Deprecated"),
   (.printWord, "Missing parentheses - the classic sign of vintage code")]

/-- Source `check_imports` (lines 18-32): for each rule in table order,
append its message when its pattern occurs in the code. -/
def check_imports (code : String) : List String :=
  deprecated_patterns.filterMap
    (fun pm => if patMatches pm.1 code.data then some pm.2 else none)

/-! ## Magic-number check (source lines 35-40) -/

/-- The `\b` test before a candidate digit run: the previous character
(none at the start of the text) must not be a word character. -/
def boundaryOk : Option Char → Bool
  | none => true
  | some p => !isWordChar p

/-- The `\b` test after a digit run: the next character (none at the
end of the text) must not be a word character. -/
def afterOk : List Char → Bool
  | [] => true
  | c :: _ => !isWordChar c

/-- Semantics of `re.findall(r'\b\d{3,}\b', code)`: every maximal digit
run of length at least three delimited by word boundaries, leftmost
first.  Scanning advances one character at a time; this agrees with the
engine's resumption at the end of a match because every position inside
an emitted run has a digit (a word character) before it, so no run can
start there. -/
def magicScan : Option Char → List Char → List (List Char)
  | _, [] => []
  | prev, c :: cs' =>
    if c.isDigit = true ∧ boundaryOk prev = true ∧
        3 ≤ (c :: cs'.takeWhile Char.isDigit).length ∧
        afterOk (cs'.dropWhile Char.isDigit) = true then
      (c :: cs'.takeWhile Char.isDigit) :: magicScan (some c) cs'
    else magicScan (some c) cs'

/-- Source `check_for_magic_numbers` (lines 35-40). -/
def check_for_magic_numbers (code : String) : List String :=
  match magicScan none code.data with
  | [] => []
  | n :: ns =>
    ["Magic number(s) found: " ++ String.intercalate ", " ((n :: ns).map String.mk)
      ++ " - hope they\x27re not port numbers"]

/-! ## Verdict synthesis (source lines 43-83) -/

/-- The three status strings the source ever places in the verdict. -/
inductive Status where
  | SUSPICIOUS
  | PROBABLY_OUTDATED
  | MAYBE_OK
deriving DecidableEq

/-- The returned dictionary: a status, a message (always present), and
an optional advice entry. -/
structure Verdict where
  status : Status
  message : String
  advice : Option String
deriving DecidableEq

/-- Per-block issue list of the loop body (source line 58). -/
def block_issues (code : String) : List String :=
  check_imports code ++ check_for_magic_numbers code

/-- Per-block summary of the loop body (source lines 59-60): `none`
when the block's issue list is empty, otherwise the formatted line. -/
def summarize (p : Nat × String) : Option String :=
  if block_issues p.2 = [] then none
  else some ("Block " ++ toString p.1 ++ ": " ++ String.intercalate " | " (block_issues p.2))

/-- The loop of source lines 56-60: blocks are enumerated from 1 and a
summary is collected exactly for blocks with a non-empty issue list. -/
def blockSummaries (blocks : List String) : List String :=
  (blocks.enumFrom 1).filterMap summarize

/-- The literal prefix of the pattern `stackoverflow\.com/questions/\d+/`. -/
def soPat : List Char := "stackoverflow.com/questions/".data

/-- Anchored attempt of `stackoverflow\.com/questions/\d+/` at the
start of `cs`: the literal prefix, a non-empty digit run, then `/`
(the greedy `\d+` followed by `/` matches exactly when the maximal
digit run is non-empty and `/` follows it, since a digit is not `/`). -/
def shapeAt (cs : List Char) : Bool :=
  soPat.isPrefixOf cs &&
    (let a := cs.drop soPat.length
     !(a.takeWhile Char.isDigit).isEmpty &&
       (match a.dropWhile Char.isDigit with
        | '/' :: _ => true
        | _ => false))

/-- Semantics of `re.search(r'stackoverflow\.com/questions/\d+/', url)`
(source line 63). -/
def hasQuestionShape : List Char → Bool
  | [] => false
  | c :: cs' => shapeAt (c :: cs') || hasQuestionShape cs'

/-- Anchored attempt of `questions/(\d+)/` at the start of `cs`,
returning the captured digit group. -/
def qidAt (cs : List Char) : Option (List Char) :=
  if "questions/".data.isPrefixOf cs then
    let a := cs.drop 10
    let run := a.takeWhile Char.isDigit
    if !run.isEmpty &&
        (match a.dropWhile Char.isDigit with
         | '/' :: _ => true
         | _ => false) then some run
    else none
  else none

/-- Semantics of `re.search(r'questions/(\d+)/', url).group(1)`
(source line 65): the captured group of the leftmost match. -/
def findQid : List Char → Option (List Char)
  | [] => none
  | c :: cs' =>
    match qidAt (c :: cs') with
    | some run => some run
    | none => findQid cs'

/-- The issue string of source line 70. -/
def ancient_msg (qid : Nat) (year : Int) : String :=
  "Question ID " ++ toString qid ++ " looks ancient (like before " ++ toString (year - 5) ++ ")"

/-- The URL heuristic of source lines 62-70, as the list of issues it
appends (empty or a single string).  A `none` url, like Python's falsy
`None` or empty string, contributes nothing. -/
def url_issue (url : Option String) (year : Int) : List String :=
  match url with
  | none => []
  | some u =>
    if hasQuestionShape u.data then
      match findQid u.data with
      | some ds =>
        if digitsToNat ds < 1000000 then [ancient_msg (digitsToNat ds) year] else []
      | none => []
    else []

/-- The complete `all_issues` list of source lines 56-70: per-block
summaries in block order, then the optional URL-heuristic line. -/
def all_issues (answer_text : String) (url : Option String) (year : Int) : List String :=
  blockSummaries (extract_code_blocks answer_text) ++ url_issue url year

/-- Message of the no-code-blocks verdict (source line 53). -/
def noBlocksMsg : String :=
  "No code blocks found. Probably just philosophical advice about programming."

/-- Message of the all-clear verdict (source line 81). -/
def maybeOkMsg : String :=
  "No obvious red flags. But remember: Stack Overflow answers age like milk."

/-- Advice of the all-clear verdict (source line 82). -/
def maybeOkAdvice : String :=
  "Test thoroughly before production. Or better yet, write your own solution."

/-- Advice of the issues-found verdict (source line 76). -/
def outdatedAdvice : String :=
  "Check library docs instead. Or just rewrite it yourself like a real developer."

/-- Message of the issues-found verdict (source line 75):
`"Potential issues found:" + "\n- ".join([''] + all_issues)`, i.e. each
issue prefixed by a newline and a dash. -/
def outdatedMsg (issues : List String) : String :=
  "Potential issues found:" ++ String.join (issues.map (fun s => "\n- " ++ s))

/-- Source `validate_stackoverflow_answer` (lines 43-83), with the
system-clock year injected.  The branch order of the source — early
return on no blocks, then early return on a non-empty issue list — is
rendered by the two conditionals. -/
def validate_stackoverflow_answer (answer_text : String) (url : Option String) (year : Int) :
    Verdict :=
  if extract_code_blocks answer_text = [] then
    { status := .SUSPICIOUS, message := noBlocksMsg, advice := none }
  else if all_issues answer_text url year = [] then
    { status := .MAYBE_OK, message := maybeOkMsg, advice := some maybeOkAdvice }
  else
    { status := .PROBABLY_OUTDATED,
      message := outdatedMsg (all_issues answer_text url year),
      advice := some outdatedAdvice }

/-! ## Claim-side definition for the vintage-syntax claim (C7)

The claim describes the trigger as "a bare `print` keyword followed by
a bare identifier": an occurrence of `print ` that is not part of a
longer identifier (nothing word-like right before it) followed by an
identifier.  This definition renders the claim's words, to be compared
with the source's behaviour (`hasPrintStmt`).
-/

/-- Stated from the claim's words: at this position, a bare `print`
keyword (the previous character, if any, is not a word character)
followed by a space and a bare identifier (a letter or underscore). -/
def barePrintAt (prev : Option Char) (cs : List Char) : Bool :=
  (match prev with
   | none => true
   | some p => !isWordChar p) &&
  "print ".data.isPrefixOf cs &&
  (match cs.drop 6 with
   | c :: _ => c.isAlpha || c == '_'
   | [] => false)

/-- Stated from the claim's words: the text contains, at some position,
a bare `print` statement form without parentheses. -/
def claimedBarePrint : Option Char → List Char → Bool
  | _, [] => false
  | prev, c :: cs' => barePrintAt prev (c :: cs') || claimedBarePrint (some c) cs'

/-! ## Helper lemmas about the fence scanner -/

/-- Unfolding a Boolean prefix test into an explicit decomposition. -/
theorem isPrefixOf_drop {l cs : List Char} (h : l.isPrefixOf cs = true) :
    cs = l ++ cs.drop l.length := by
  rw [List.isPrefixOf_iff_prefix] at h
  obtain ⟨t, rfl⟩ := h
  rw [List.drop_left]

/-- A successful lazy split decomposes the text as content, fence,
remainder, and the content contains no fence — the first closing fence
terminates the capture. -/
theorem splitAtFence_spec : ∀ {cs content rest : List Char},
    splitAtFence cs = some (content, rest) →
    cs = content ++ fence ++ rest ∧ occursIn fence content = false := by
  intro cs
  induction cs with
  | nil => intro content rest h; simp [splitAtFence] at h
  | cons c cs' ih =>
    intro content rest h
    rw [splitAtFence] at h
    split at h
    next hpre =>
      simp only [Option.some.injEq, Prod.mk.injEq] at h
      obtain ⟨rfl, rfl⟩ := h
      refine ⟨?_, by decide⟩
      have h3 : (3 : Nat) = fence.length := rfl
      simp only [List.nil_append]
      rw [h3]
      exact isPrefixOf_drop hpre
    next hpre =>
      rw [Option.map_eq_some'] at h
      obtain ⟨⟨content', rest'⟩, hsp, heq⟩ := h
      simp only [Prod.mk.injEq] at heq
      obtain ⟨rfl, rfl⟩ := heq
      obtain ⟨happ, hnf⟩ := ih hsp
      have hfull : c :: cs' = (c :: content') ++ (fence ++ rest') := by
        rw [happ]; simp [List.append_assoc]
      refine ⟨by rw [hfull]; simp [List.append_assoc], ?_⟩
      rw [occursIn]
      cases hpp : fence.isPrefixOf (c :: content') with
      | true =>
        exfalso
        apply hpre
        rw [List.isPrefixOf_iff_prefix] at hpp ⊢
        rw [hfull]
        exact hpp.trans (List.prefix_append _ _)
      | false => simpa using hnf

/-- Inversion of a successful anchored match: the text starts with the
opening fence, the optional `python` tag, the mandatory newline, the
captured content, the closing fence, and the remainder; and the content
contains no fence (non-greedy capture). -/
theorem matchFrom_spec {cs content rest : List Char}
    (h : matchFrom cs = some (content, rest)) :
    (cs = fence ++ '\n' :: (content ++ fence ++ rest) ∨
     cs = fence ++ pythonNl ++ content ++ fence ++ rest) ∧
    occursIn fence content = false := by
  rw [matchFrom] at h
  split at h
  case isFalse => exact absurd h (by simp)
  case isTrue hpre =>
    have hcs : cs = fence ++ cs.drop 3 := by
      have h3 : (3 : Nat) = fence.length := rfl
      rw [h3]; exact isPrefixOf_drop hpre
    by_cases hpy : pythonNl.isPrefixOf (cs.drop 3) = true
    · rw [if_pos hpy] at h
      have hd3 : cs.drop 3 = pythonNl ++ cs.drop 10 := by
        have h7 : (7 : Nat) = pythonNl.length := rfl
        have := isPrefixOf_drop hpy
        rw [← h7, List.drop_drop] at this
        exact this
      cases hsp : splitAtFence (cs.drop 10) with
      | some p =>
        rw [hsp] at h
        simp only [Option.some.injEq] at h
        obtain rfl : p = (content, rest) := h
        obtain ⟨happ, hnf⟩ := splitAtFence_spec hsp
        refine ⟨Or.inr ?_, hnf⟩
        rw [hcs, hd3, happ]
        simp [List.append_assoc]
      | none =>
        rw [hsp] at h
        have hpyl : pythonNl = 'p' :: "ython\n".data := rfl
        rw [hd3, hpyl] at h
        simp at h
    · rw [if_neg hpy] at h
      simp only [] at h
      cases hd3 : cs.drop 3 with
      | nil => rw [hd3] at h; simp at h
      | cons c' body =>
        rw [hd3] at h
        split at h
        next body' heq =>
          obtain ⟨rfl, rfl⟩ : c' = '\n' ∧ body = body' := by
            have := List.cons.injEq .. ▸ heq
            exact ⟨(List.cons.inj heq).1, (List.cons.inj heq).2⟩
          obtain ⟨happ, hnf⟩ := splitAtFence_spec h
          refine ⟨Or.inl ?_, hnf⟩
          rw [hcs, hd3, happ]
        next => exact absurd h (by simp)

/-- A successful anchored match consumes at least the two fences and
the newline, so the remainder is strictly shorter than the text. -/
theorem matchFrom_rest_lt {cs content rest : List Char}
    (h : matchFrom cs = some (content, rest)) : rest.length < cs.length := by
  have hf : fence.length = 3 := rfl
  have hp : pythonNl.length = 7 := rfl
  rcases (matchFrom_spec h).1 with h1 | h1 <;>
    rw [h1] <;> simp [List.length_append, hf, hp] <;> omega

/-- The scanning loop on the empty text yields nothing, whatever the fuel. -/
theorem findAllAux_nil : ∀ f : Nat, findAllAux f [] = [] := by
  intro f; cases f <;> rfl

/-- Fuel irrelevance: any fuel at least the length of the text gives
the same scan result, so `findAll`'s choice of fuel is canonical. -/
theorem findAllAux_irrel : ∀ (f₁ f₂ : Nat) (cs : List Char),
    cs.length ≤ f₁ → cs.length ≤ f₂ → findAllAux f₁ cs = findAllAux f₂ cs := by
  intro f₁
  induction f₁ with
  | zero =>
    intro f₂ cs h₁ _
    have : cs = [] := List.eq_nil_of_length_eq_zero (Nat.le_zero.mp h₁)
    subst this
    simp [findAllAux_nil]
  | succ f ih =>
    intro f₂ cs h₁ h₂
    cases cs with
    | nil => simp [findAllAux_nil]
    | cons c cs' =>
      cases f₂ with
      | zero => simp [List.length_cons] at h₂
      | succ f₂' =>
        cases hm : matchFrom (c :: cs') with
        | some p =>
          obtain ⟨content, rest⟩ := p
          have hlt := matchFrom_rest_lt hm
          simp only [List.length_cons] at h₁ h₂ hlt
          simp only [findAllAux, hm]
          exact congrArg _ (ih f₂' rest (by omega) (by omega))
        | none =>
          simp only [List.length_cons] at h₁ h₂
          simp only [findAllAux, hm]
          exact ih f₂' cs' (by omega) (by omega)

/-- Unfolding `findAll` at a position where the anchored match
succeeds: emit the capture and resume after the match. -/
theorem findAll_match {cs content rest : List Char}
    (h : matchFrom cs = some (content, rest)) :
    findAll cs = content :: findAll rest := by
  cases cs with
  | nil => rw [show matchFrom [] = none from rfl] at h; exact absurd h (by simp)
  | cons c cs' =>
    have hlt := matchFrom_rest_lt h
    simp only [List.length_cons] at hlt
    unfold findAll
    simp only [List.length_cons, findAllAux, h]
    exact congrArg _ (findAllAux_irrel cs'.length rest.length rest (by omega) le_rfl)

/-- Every capture the scanning loop emits is fence-free. -/
theorem findAllAux_noFence : ∀ (f : Nat) (cs b : List Char),
    b ∈ findAllAux f cs → occursIn fence b = false := by
  intro f
  induction f with
  | zero => intro cs b hb; simp [findAllAux] at hb
  | succ f ih =>
    intro cs b hb
    cases cs with
    | nil => simp [findAllAux] at hb
    | cons c cs' =>
      cases hm : matchFrom (c :: cs') with
      | some p =>
        obtain ⟨content, rest⟩ := p
        simp only [findAllAux, hm] at hb
        rcases List.mem_cons.mp hb with rfl | hb'
        · exact (matchFrom_spec hm).2
        · exact ih rest b hb'
      | none =>
        simp only [findAllAux, hm] at hb
        exact ih cs' b hb

/-- Every extracted code block is fence-free: the first closing fence
after an opening fence terminates the block. -/
theorem extract_noFence (t b : String) (hb : b ∈ extract_code_blocks t) :
    occursIn fence b.data = false := by
  unfold extract_code_blocks at hb
  obtain ⟨l, hl, rfl⟩ := List.mem_map.mp hb
  exact findAllAux_noFence _ _ _ hl

/-! ## Helper lemmas about verdict synthesis and the rule table -/

/-- Blocks whose issue lists are all empty contribute no summaries,
from any starting index of the enumeration. -/
theorem filterMap_summarize_nil : ∀ (blocks : List String) (n : Nat),
    (∀ b ∈ blocks, block_issues b = []) →
    (blocks.enumFrom n).filterMap summarize = [] := by
  intro blocks
  induction blocks with
  | nil => intro n _; simp
  | cons b bs ih =>
    intro n h
    have hb : block_issues b = [] := h b (by simp)
    have hbs := ih (n + 1) (fun x hx => h x (by simp [hx]))
    simp [List.enumFrom_cons, List.filterMap_cons, summarize, hb, hbs]

/-- Clean blocks yield an empty summary list. -/
theorem blockSummaries_eq_nil {blocks : List String}
    (h : ∀ b ∈ blocks, block_issues b = []) : blockSummaries blocks = [] :=
  filterMap_summarize_nil blocks 1 h

/-- Members of a digit-run prefix are digits. -/
theorem mem_takeWhile_digit : ∀ {l : List Char} {x : Char},
    x ∈ l.takeWhile Char.isDigit → x.isDigit = true := by
  intro l
  induction l with
  | nil => intro x hx; simp at hx
  | cons c cs ih =>
    intro x hx
    rw [List.takeWhile_cons] at hx
    by_cases hc : Char.isDigit c = true
    · rw [if_pos hc] at hx
      rcases List.mem_cons.mp hx with rfl | hx'
      · exact hc
      · exact ih hx'
    · rw [if_neg hc] at hx; simp at hx

/-- Soundness of the magic-number scan: every emitted token has at
least three characters, consists of digits only, and occurs verbatim
as a substring of the scanned text. -/
theorem magicScan_sound : ∀ (cs : List Char) (prev : Option Char) (tok : List Char),
    tok ∈ magicScan prev cs →
    3 ≤ tok.length ∧ tok.all Char.isDigit = true ∧ occursIn tok cs = true := by
  intro cs
  induction cs with
  | nil => intro prev tok h; simp [magicScan] at h
  | cons c cs' ih =>
    intro prev tok h
    rw [magicScan] at h
    split at h
    next hcond =>
      rcases List.mem_cons.mp h with rfl | h'
      · obtain ⟨hd, -, hlen, -⟩ := hcond
        refine ⟨hlen, ?_, ?_⟩
        · rw [List.all_eq_true]
          intro x hx
          rcases List.mem_cons.mp hx with rfl | hx'
          · exact hd
          · exact mem_takeWhile_digit hx'
        · rw [occursIn, Bool.or_eq_true]
          left
          rw [List.isPrefixOf_iff_prefix]
          exact List.cons_prefix_cons.mpr ⟨rfl, List.takeWhile_prefix _⟩
      · have hrec := ih (some c) tok h'
        exact ⟨hrec.1, hrec.2.1, by rw [occursIn, Bool.or_eq_true]; right; exact hrec.2.2⟩
    next =>
      have hrec := ih (some c) tok h
      exact ⟨hrec.1, hrec.2.1, by rw [occursIn, Bool.or_eq_true]; right; exact hrec.2.2⟩

/-- Expansion of `check_imports` into the five rule tests in table
order: each rule contributes its message once when its pattern occurs,
and nothing otherwise. -/
theorem check_imports_eq (code : String) :
    check_imports code =
      (if occursIn "from tkinter import ttk".data code.data then ["ttk is still fine, but are YOU?"] else []) ++
      (if occursIn "import urllib2".data code.data then ["Python 2 called, it wants its imports back"] else []) ++
      (if occursIn "from StringIO import".data code.data then ["This import is so old it has a pension"] else []) ++
      (if occursIn "import md5".data code.data then ["MD5? More like M-Deprecated"] else []) ++
      (if hasPrintStmt code.data then ["Missing parentheses - the classic sign of vintage code"] else []) := by
  unfold check_imports deprecated_patterns
  simp only [List.filterMap_cons, List.filterMap_nil, patMatches]
  split_ifs <;> simp

/-- An occurrence of the literal `print x` is in particular a match of
the pattern `print \w+`. -/
theorem hasPrintStmt_of_printx : ∀ cs : List Char,
    occursIn "print x".data cs = true → hasPrintStmt cs = true := by
  intro cs
  induction cs with
  | nil => intro h; rw [occursIn] at h; exact absurd h (by decide)
  | cons c cs' ih =>
    intro h
    rw [occursIn, Bool.or_eq_true] at h
    rcases h with h | h
    · rw [List.isPrefixOf_iff_prefix] at h
      obtain ⟨t, ht⟩ := h
      rw [hasPrintStmt, Bool.or_eq_true]
      left
      rw [← ht]
      rfl
    · rw [hasPrintStmt, Bool.or_eq_true]
      right
      exact ih h

/-! ## The claims -/

/-- Claim C1: for every input string and optional URL (and any clock
year), `validate` returns a well-formed Verdict: the status is one of
SUSPICIOUS, PROBABLY_OUTDATED, MAYBE_OK (the message field is present
by the type of `Verdict`), and the advice field is absent exactly when
the status is SUSPICIOUS. -/
theorem claim_C1 (a : String) (u : Option String) (y : Int) :
    ((validate_stackoverflow_answer a u y).status = Status.SUSPICIOUS ∨
     (validate_stackoverflow_answer a u y).status = Status.PROBABLY_OUTDATED ∨
     (validate_stackoverflow_answer a u y).status = Status.MAYBE_OK) ∧
    ((validate_stackoverflow_answer a u y).advice = none ↔
     (validate_stackoverflow_answer a u y).status = Status.SUSPICIOUS) := by
  unfold validate_stackoverflow_answer
  split_ifs <;> simp

/-- Claim C2: whenever extraction finds no complete fence pair (the
extracted block list is empty), `validate` returns SUSPICIOUS with the
fixed no-code-blocks message and no advice, regardless of the URL and
of the clock year — it short-circuits before block analysis and before
the URL heuristic. -/
theorem claim_C2 (a : String) (u : Option String) (y : Int)
    (h : extract_code_blocks a = []) :
    validate_stackoverflow_answer a u y =
      { status := Status.SUSPICIOUS, message := noBlocksMsg, advice := none } := by
  unfold validate_stackoverflow_answer
  rw [if_pos h]

/-- Witness for C2 at a concrete input: text with an unterminated
opening fence, together with a URL whose question identifier is below
the threshold, still yields the SUSPICIOUS verdict. -/
theorem claim_C2_witness :
    validate_stackoverflow_answer "Try monads. ```python\nnever closed"
        (some "https://stackoverflow.com/questions/42/x") 2024 =
      { status := Status.SUSPICIOUS, message := noBlocksMsg, advice := none } :=
  claim_C2 _ _ _ (by decide)

/-- Claim C3: with at least one extracted block, no deprecation-rule
match in any block, no magic-number token in any block, and a URL
contributing no issue, `validate` returns MAYBE_OK with the fixed
message and fixed advice, independent of the input content. -/
theorem claim_C3 (a : String) (u : Option String) (y : Int)
    (h1 : extract_code_blocks a ≠ [])
    (h2 : ∀ b ∈ extract_code_blocks a,
      check_imports b = [] ∧ check_for_magic_numbers b = [])
    (h3 : url_issue u y = []) :
    validate_stackoverflow_answer a u y =
      { status := Status.MAYBE_OK, message := maybeOkMsg, advice := some maybeOkAdvice } := by
  have hsum : blockSummaries (extract_code_blocks a) = [] :=
    blockSummaries_eq_nil (fun b hb => by
      unfold block_issues
      rw [(h2 b hb).1, (h2 b hb).2]
      rfl)
  unfold validate_stackoverflow_answer
  rw [if_neg h1, if_pos (by unfold all_issues; rw [hsum, h3]; rfl)]

/-- Witness for C3 at a concrete clean one-block input with no URL. -/
theorem claim_C3_witness :
    validate_stackoverflow_answer "```\nresult = combine(a, b)\n```" none 2024 =
      { status := Status.MAYBE_OK, message := maybeOkMsg, advice := some maybeOkAdvice } :=
  claim_C3 _ _ _ (by decide) (by decide) rfl

/-- Claim C4: with at least one extracted block, a URL matching the
question-page shape whose extracted identifier is below 1,000,000
contributes exactly one issue (naming the identifier and the year
minus five) appended after all per-block issues, forcing status
PROBABLY_OUTDATED even for clean code; an identifier at or above
1,000,000 contributes no issue. -/
theorem claim_C4 (a u : String) (y : Int) (ds : List Char)
    (hblocks : extract_code_blocks a ≠ [])
    (hshape : hasQuestionShape u.data = true)
    (hqid : findQid u.data = some ds) :
    (digitsToNat ds < 1000000 →
      url_issue (some u) y = [ancient_msg (digitsToNat ds) y] ∧
      all_issues a (some u) y =
        blockSummaries (extract_code_blocks a) ++ [ancient_msg (digitsToNat ds) y] ∧
      (validate_stackoverflow_answer a (some u) y).status = Status.PROBABLY_OUTDATED) ∧
    (1000000 ≤ digitsToNat ds → url_issue (some u) y = []) := by
  constructor
  · intro hlt
    have hui : url_issue (some u) y = [ancient_msg (digitsToNat ds) y] := by
      simp [url_issue, hshape, hqid, hlt]
    refine ⟨hui, by unfold all_issues; rw [hui], ?_⟩
    have hai : all_issues a (some u) y ≠ [] := by
      unfold all_issues; rw [hui]; simp
    unfold validate_stackoverflow_answer
    rw [if_neg hblocks, if_neg hai]
  · intro hge
    have hnlt : ¬ digitsToNat ds < 1000000 := by omega
    simp [url_issue, hshape, hqid, hnlt]

/-- Witness for C4: a sub-threshold identifier turns otherwise clean
code PROBABLY_OUTDATED with the concrete ancient-question line, and a
seven-digit identifier contributes nothing. -/
theorem claim_C4_witness :
    (validate_stackoverflow_answer "```\nx = 1\n```"
        (some "https://stackoverflow.com/questions/123456/how-do-i") 2024).status =
      Status.PROBABLY_OUTDATED ∧
    url_issue (some "https://stackoverflow.com/questions/123456/how-do-i") 2024 =
      ["Question ID 123456 looks ancient (like before 2019)"] ∧
    url_issue (some "https://stackoverflow.com/questions/2000000/fresh") 2024 = [] := by
  have h₁ := claim_C4 "```\nx = 1\n```" "https://stackoverflow.com/questions/123456/how-do-i"
    2024 ("123456".data) (by decide) (by decide) (by decide)
  have h₂ := claim_C4 "```\nx = 1\n```" "https://stackoverflow.com/questions/2000000/fresh"
    2024 ("2000000".data) (by decide) (by decide) (by decide)
  obtain ⟨hu, -, hs⟩ := h₁.1 (by decide)
  exact ⟨hs, hu.trans (by decide), h₂.2 (by decide)⟩

/-- Claim C5: extraction is non-greedy — every extracted block is
fence-free, so the first closing fence after an opening fence
terminates that block; in particular the two adjacent fenced blocks
are extracted as exactly two entries in order, and only the first
produces a finding. -/
theorem claim_C5 :
    (∀ (t b : String), b ∈ extract_code_blocks t → occursIn fence b.data = false) ∧
    extract_code_blocks "```\nimport md5\n``````\nx=1\n```" = ["import md5\n", "x=1\n"] ∧
    block_issues "import md5\n" = ["MD5? More like M-Deprecated"] ∧
    block_issues "x=1\n" = [] :=
  ⟨extract_noFence, by decide, by decide, by decide⟩

/-- Witness for C5: the first extracted block of the adjacent-blocks
example is fence-free. -/
theorem claim_C5_witness : occursIn fence ("import md5\n").data = false :=
  claim_C5.1 "```\nimport md5\n``````\nx=1\n```" "import md5\n" (by decide)


/-- Counterexample to claim C6 as stated: a fenced block whose opening
fence is immediately followed by the language tag `ruby` is NOT
extracted at all (the source regex only recognises the literal tag
`python`), while the same block without a tag is extracted — so the
presence of a non-`python` language tag does prevent the block from
being extracted, contrary to the claim's "a language tag (such as
python)". -/
theorem claim_C6_counterexample :
    extract_code_blocks "```ruby\nx=1\n```" = [] ∧
    extract_code_blocks "```\nx=1\n```" = ["x=1\n"] := by decide

/-- A list is a Boolean prefix of itself followed by anything. -/
theorem isPrefixOf_append_self (l t : List Char) : l.isPrefixOf (l ++ t) = true := by
  rw [List.isPrefixOf_iff_prefix]; exact List.prefix_append l t

/-- Claim C6 as amended: only the literal language tag `python` is
recognised.  For every fenced block whose opening fence is immediately
followed by `python` and a newline, extraction captures the content
between the fences with the tag discarded (the hypothesis states that
the appended closing fence is the first fence occurrence after the
content starts, i.e. the block is well formed). -/
theorem claim_C6_amended (content : String)
    (h : splitAtFence (content.data ++ fence) = some (content.data, [])) :
    extract_code_blocks ("```python\n" ++ content ++ "```") = [content] := by
  have hsplit : "```python\n".data ++ (content.data ++ "```".data) =
      fence ++ (pythonNl ++ (content.data ++ fence)) := rfl
  have hm : matchFrom ("```python\n".data ++ (content.data ++ "```".data)) =
      some (content.data, []) := by
    rw [hsplit, matchFrom, if_pos (isPrefixOf_append_self fence _)]
    have hdrop3 : (fence ++ (pythonNl ++ (content.data ++ fence))).drop 3 =
        pythonNl ++ (content.data ++ fence) := by
      rw [show (3 : Nat) = fence.length from rfl, List.drop_left]
    have hdrop10 : (fence ++ (pythonNl ++ (content.data ++ fence))).drop 10 =
        content.data ++ fence := by
      rw [← List.append_assoc, show (10 : Nat) = (fence ++ pythonNl).length from rfl,
        List.drop_left]
    rw [hdrop3, if_pos (isPrefixOf_append_self pythonNl _), hdrop10, h]
  unfold extract_code_blocks
  rw [String.data_append, String.data_append, List.append_assoc, findAll_match hm]
  rfl

/-- Witness for the amended C6: a `python`-tagged block is extracted
with the tag discarded. -/
theorem claim_C6_witness :
    extract_code_blocks ("```python\n" ++ "x=1\n" ++ "```") = ["x=1\n"] :=
  claim_C6_amended "x=1\n" (by decide)

/-- Counterexample to claim C7 as stated: the text `sprint x` contains
no bare `print` keyword (the characters before `print` make it part of
the identifier `sprint`), yet the vintage-syntax rule fires, because
the source regex `print \w+` has no word boundary before `print` — so
the rule does not fire "exactly when" a bare `print` statement form is
present. -/
theorem claim_C7_counterexample :
    check_imports "sprint x" = ["Missing parentheses - the classic sign of vintage code"] ∧
    claimedBarePrint none ("sprint x").data = false := by decide

/-- Claim C7 as amended: the vintage-syntax rule fires exactly when
the block contains the substring `print ` immediately followed by a
word character — with no word-boundary requirement before `print`, so
occurrences inside longer identifiers also trigger it; it contributes
its message at most once per block; and in particular every block
containing `print x` flags the vintage-syntax message. -/
theorem claim_C7_amended (code : String) :
    ("Missing parentheses - the classic sign of vintage code" ∈ check_imports code ↔
      hasPrintStmt code.data = true) ∧
    (check_imports code).count "Missing parentheses - the classic sign of vintage code" ≤ 1 ∧
    (occursIn "print x".data code.data = true →
      "Missing parentheses - the classic sign of vintage code" ∈ check_imports code) := by
  have hmem : ("Missing parentheses - the classic sign of vintage code" ∈ check_imports code ↔
      hasPrintStmt code.data = true) := by
    rw [check_imports_eq]
    split_ifs <;> simp_all
  refine ⟨hmem, ?_, fun hocc => hmem.mpr (hasPrintStmt_of_printx _ hocc)⟩
  rw [check_imports_eq]
  split_ifs <;> decide

/-- Witness for the amended C7: a block containing `print x` flags the
vintage-syntax message. -/
theorem claim_C7_witness :
    "Missing parentheses - the classic sign of vintage code" ∈ check_imports "print x" :=
  (claim_C7_amended "print x").2.2 (by decide)

/-- Claim C8: for every code block, the magic-number sub-check
contributes nothing when the scan finds no standalone numeric token of
three or more digits, and otherwise contributes exactly one finding
listing all found tokens verbatim (comma-separated, in scan order,
with the fixed cautionary suffix); every token the scan finds has at
least three characters, is all digits, and occurs verbatim in the
block. -/
theorem claim_C8 (code : String) :
    (magicScan none code.data = [] → check_for_magic_numbers code = []) ∧
    (∀ n ns, magicScan none code.data = n :: ns →
      check_for_magic_numbers code =
        ["Magic number(s) found: " ++ String.intercalate ", " ((n :: ns).map String.mk) ++
          " - hope they\x27re not port numbers"]) ∧
    (∀ tok ∈ magicScan none code.data,
      3 ≤ tok.length ∧ tok.all Char.isDigit = true ∧ occursIn tok code.data = true) := by
  refine ⟨?_, ?_, ?_⟩
  · intro h; unfold check_for_magic_numbers; rw [h]
  · intro n ns h; unfold check_for_magic_numbers; rw [h]
  · intro tok htok; exact magicScan_sound code.data none tok htok

/-- Witness for C8: the literal token `12345` is listed in a
magic-number finding, digits embedded in an identifier yield nothing,
and two tokens are listed comma-separated in order of appearance. -/
theorem claim_C8_witness :
    check_for_magic_numbers "timeout = 12345" =
      ["Magic number(s) found: 12345 - hope they\x27re not port numbers"] ∧
    check_for_magic_numbers "abc12345def" = [] ∧
    check_for_magic_numbers "a = 8080; b = 12345" =
      ["Magic number(s) found: 8080, 12345 - hope they\x27re not port numbers"] := by
  refine ⟨?_, ?_, ?_⟩
  · exact ((claim_C8 "timeout = 12345").2.1 ("12345".data) [] (by decide)).trans (by decide)
  · exact (claim_C8 "abc12345def").1 (by decide)
  · exact ((claim_C8 "a = 8080; b = 12345").2.1 ("8080".data) ["12345".data]
      (by decide)).trans (by decide)

/-- Claim C9: `validate` is deterministic up to the clock — two calls
with identical text, URL and clock year return identical Verdicts; in
this embedding the function reads no state other than its three
arguments. -/
theorem claim_C9 (a₁ a₂ : String) (u₁ u₂ : Option String) (y₁ y₂ : Int)
    (ha : a₁ = a₂) (hu : u₁ = u₂) (hy : y₁ = y₂) :
    validate_stackoverflow_answer a₁ u₁ y₁ = validate_stackoverflow_answer a₂ u₂ y₂ := by
  rw [ha, hu, hy]

/-- Witness for C9 at a concrete repeated call. -/
theorem claim_C9_witness :
    validate_stackoverflow_answer "```\nx = 1\n```" none 2024 =
      validate_stackoverflow_answer "```\nx = 1\n```" none 2024 :=
  claim_C9 _ _ _ _ _ _ rfl rfl rfl

/-- Claim C10 (implicit): a successful anchored match requires the
newline right after the opening fence and its optional tag — every
match decomposes the text as fence, optional `python` tag, newline,
content, fence, remainder; in particular the single-line text with
content on the opening-fence line yields no block, while a closing
fence needs no preceding newline. -/
theorem claim_C10 :
    (∀ cs content rest : List Char, matchFrom cs = some (content, rest) →
      cs = fence ++ '\n' :: (content ++ fence ++ rest) ∨
      cs = fence ++ pythonNl ++ content ++ fence ++ rest) ∧
    extract_code_blocks "```x=1```" = [] ∧
    extract_code_blocks "```\nx=1```" = ["x=1"] :=
  ⟨fun _ _ _ h => (matchFrom_spec h).1, by decide, by decide⟩

/-- Witness for C10: the inversion applied to a concrete match, whose
text indeed decomposes with the mandatory newline after the fence. -/
theorem claim_C10_witness :
    "```\nab```".data = fence ++ '\n' :: ("ab".data ++ fence ++ []) ∨
    "```\nab```".data = fence ++ pythonNl ++ "ab".data ++ fence ++ [] :=
  claim_C10.1 ("```\nab```".data) ("ab".data) [] (by decide)
